import Mathlib

/-!
Shallow embedding of the smithers Session & Resource Lifecycle Orchestrator
(`src/smithers/commands/kill.py`, `src/smithers/commands/cleanup.py`,
`src/smithers/commands/projects.py`, `src/smithers/services/git.py`,
`src/smithers/services/config_loader.py`).

External collaborators (the tmux process backend, the GitHub CLI backend, the
vibekanban task board, the `git gtr` subprocess) are modelled as oracle
records: each backend call is a function that either succeeds or fails, and
the orchestrator code is translated statement by statement against those
oracles.  Side effects are recorded as an ordered trace of events, so that
ordering and continue-on-error properties can be stated about the trace.
-/

namespace Smithers

/-- Side effects performed during `kill` teardown, in the order the Python
code performs them.  Warning events record a caught exception (the
`print_warning` branches of `_kill_session_with_cleanup`). -/
inductive Event where
  | killedSession (name : String)
  | closedPr (pr : Nat)
  | deletedBranch (branch : String)
  | prCleanupFailed (pr : Nat) (msg : String)
  | removedWorktree (branch : String)
  | worktreeCleanupFailed (branch : String) (msg : String)
  | deletedPlan (file : String)
  | planDeleteFailed (file : String) (msg : String)
  | killedMsg (name : String)
  | batchReport (n : Nat)
  deriving Repr, DecidableEq

/-- Oracle for the backend calls issued by `kill.py`.  `TmuxService.kill_session`,
`GitHubService.get_pr_info` / `close_pr` / `delete_branch` and plan-file
deletion are external, independently failing operations; `GitService.cleanup_worktree`
is refined further below from `git.py`.  An `Except.error` models the call
raising a Python exception. -/
structure Backends where
  killSession : String → Except String Unit
  getPrInfo : Nat → Except String String
  closePr : Nat → String → Except String Unit
  deleteBranch : String → Except String Unit
  cleanupWorktree : String → Except String Unit
  unlinkPlan : String → Except String Unit

/-- The fixed attribution comment of `kill.py` line 176. -/
def killComment : String := "Closed by `smithers kill` - session terminated."

/-- Body of the per-PR loop of `_kill_session_with_cleanup` (kill.py 167-184):
look up the PR branch, close the PR with the fixed comment, delete the
branch; any exception is caught and turned into a warning. -/
def prStepEvents (b : Backends) (pr : Nat) : List Event :=
  match b.getPrInfo pr with
  | .error e => [.prCleanupFailed pr e]
  | .ok branch =>
    match b.closePr pr killComment with
    | .error e => [.prCleanupFailed pr e]
    | .ok _ =>
      match b.deleteBranch branch with
      | .error e => [.closedPr pr, .prCleanupFailed pr e]
      | .ok _ => [.closedPr pr, .deletedBranch branch]

/-- Body of the per-worktree loop of `_kill_session_with_cleanup` (kill.py 190-195). -/
def wtStepEvents (b : Backends) (branch : String) : List Event :=
  match b.cleanupWorktree branch with
  | .ok _ => [.removedWorktree branch]
  | .error e => [.worktreeCleanupFailed branch e]

/-- Body of the per-plan-file loop of `_kill_session_with_cleanup` (kill.py 200-205). -/
def planStepEvents (b : Backends) (f : String) : List Event :=
  match b.unlinkPlan f with
  | .ok _ => [.deletedPlan f]
  | .error e => [.planDeleteFailed f e]

/-- `_kill_session_with_cleanup` (kill.py 141-205).  The tmux kill on line 160
is not inside any `try`, so its failure escapes (second component `some e`);
each of the three resource loops catches exceptions per item.  The result is
the ordered event trace plus the escaped exception, if any. -/
def killSessionWithCleanup (b : Backends) (sessionName : String)
    (sessionMode : Option String) (trackedWorktrees : List String)
    (trackedPrs : List Nat) (planFiles : List String) :
    List Event × Option String :=
  match b.killSession sessionName with
  | .error e => ([], some e)
  | .ok _ =>
    let acc0 := [Event.killedSession sessionName]
    let acc1 :=
      if sessionMode = some "implement" ∧ trackedPrs ≠ [] then
        trackedPrs.foldl (fun acc pr => acc ++ prStepEvents b pr) acc0
      else acc0
    let acc2 :=
      if trackedWorktrees ≠ [] then
        trackedWorktrees.foldl (fun acc w => acc ++ wtStepEvents b w) acc1
      else acc1
    let acc3 :=
      if planFiles ≠ [] then
        planFiles.foldl (fun acc f => acc ++ planStepEvents b f) acc2
      else acc2
    (acc3, none)

/-- Resources gathered for one session in `_kill_all_sessions` (kill.py 219-232). -/
structure SessionInfo where
  name : String
  mode : Option String
  worktrees : List String
  prs : List Nat
  plans : List String
  deriving Repr, DecidableEq

/-- The per-session loop of `_kill_all_sessions` (kill.py 251-261).  The call
to `_kill_session_with_cleanup` is not inside a `try`, so an escaped
exception aborts the iteration over the remaining sessions. -/
def killAllExec (b : Backends) : List SessionInfo → List Event × Option String
  | [] => ([], none)
  | s :: rest =>
    match killSessionWithCleanup b s.name s.mode s.worktrees s.prs s.plans with
    | (tr, some e) => (tr, some e)
    | (tr, none) =>
      match killAllExec b rest with
      | (tr2, err2) => (tr ++ Event.killedMsg s.name :: tr2, err2)

/-- The tmux-side environment of the `kill` command, as observed through
`TmuxService` (the service itself is repository code outside `src/`; these
are its query operations, pure from the command's point of view, per the
spec's ProcessSessionBackend port). -/
structure TmuxEnv where
  lastSession : Option String
  sessions : List String
  sessionExists : String → Bool
  getMode : String → Option String
  getWorktrees : String → List String
  getPrs : String → List Nat
  getPlanFiles : String → List String

/-- Outcome of target resolution in `kill` (kill.py 47-68). -/
inductive KillTarget where
  | target (name : String)
  | noSessions
  | ambiguous (candidates : List String)
  deriving Repr, DecidableEq

/-- Target resolution of the `kill` command, kill.py 47-68: an explicit
argument wins; else the last-session hint; else a single live session is
auto-picked; else the command fails listing the live sessions. -/
def resolveKillTarget (sessionArg : Option String) (lastSession : Option String)
    (sessions : List String) : KillTarget :=
  match sessionArg with
  | some s => .target s
  | none =>
    match lastSession with
    | some ls => .target ls
    | none =>
      match sessions with
      | [] => .noSessions
      | [s] => .target s
      | _ => .ambiguous sessions

/-- Terminal outcome of the `kill` command. -/
inductive KillResult where
  | noSessions
  | ambiguous (candidates : List String)
  | notFound (name : String) (live : List String)
  | cancelled (name : String)
  | killed (name : String)
  | raised (msg : String)
  deriving Repr, DecidableEq

/-- Exit status of each `kill` outcome: `typer.Exit(1)` for resolution
failures, `typer.Exit(0)` for a declined confirmation, normal return for
success, and a nonzero exit when an exception escapes to the CLI runner. -/
def KillResult.exitCode : KillResult → Nat
  | .noSessions => 1
  | .ambiguous _ => 1
  | .notFound _ _ => 1
  | .cancelled _ => 0
  | .killed _ => 0
  | .raised _ => 1

/-- The single-session path of the `kill` command (kill.py 41-108):
resolve the target, verify it exists (listing live sessions on failure),
gather resources, confirm unless `--force`, then run the teardown. -/
def killCommand (b : Backends) (env : TmuxEnv) (sessionArg : Option String)
    (force : Bool) (confirmAnswer : Bool) : List Event × KillResult :=
  match resolveKillTarget sessionArg env.lastSession env.sessions with
  | .noSessions => ([], .noSessions)
  | .ambiguous cs => ([], .ambiguous cs)
  | .target t =>
    if env.sessionExists t then
      let mode := env.getMode t
      let wts := env.getWorktrees t
      let prs := if mode = some "implement" then env.getPrs t else []
      let plans := env.getPlanFiles t
      if ¬ force ∧ ¬ confirmAnswer then ([], .cancelled t)
      else
        match killSessionWithCleanup b t mode wts prs plans with
        | (tr, some e) => (tr, .raised e)
        | (tr, none) => (tr, .killed t)
    else ([], .notFound t env.sessions)

/-- Resource gathering of `_kill_all_sessions` (kill.py 219-232): PR numbers
are collected only for `implement`-mode sessions. -/
def gatherSessionInfo (env : TmuxEnv) (name : String) : SessionInfo where
  name := name
  mode := env.getMode name
  worktrees := env.getWorktrees name
  prs := if env.getMode name = some "implement" then env.getPrs name else []
  plans := env.getPlanFiles name

/-- `_kill_all_sessions` (kill.py 208-263): batch confirmation once, then the
per-session loop; the final aggregate report is printed only when no
exception escaped the loop. -/
def killAllSessions (b : Backends) (env : TmuxEnv) (force confirmAnswer : Bool) :
    List Event × Option String :=
  if env.sessions = [] then ([], none)
  else if ¬ force ∧ ¬ confirmAnswer then ([], none)
  else
    match killAllExec b (env.sessions.map (gatherSessionInfo env)) with
    | (tr, some e) => (tr, some e)
    | (tr, none) => (tr ++ [Event.batchReport env.sessions.length], none)

/-- Embedding of Python's `str.lower()`: lower-case each character.  (The
Lean core `String.toLower` is extensionally the same but is defined by
well-founded recursion on byte positions and so does not reduce in the
kernel; this structural form does.) -/
def pyLower (s : String) : String := ⟨s.data.map Char.toLower⟩

/-- `GitService.get_branch_dependency_base` (git.py 192-210): a pure lookup
that takes no view of which branches exist. -/
def get_branch_dependency_base (depends_on : Option String)
    (default_base : String := "main") : String :=
  match depends_on with
  | none => default_base
  | some d => if pyLower d = "none" then default_base else d

/-- A vibekanban project record; the Python code reads it as a dict with
`.get`, so both fields are optional. -/
structure Project where
  name : Option String
  id : Option String
  deriving Repr, DecidableEq

/-- `p.get("name", "")` — the key used for matching. -/
def Project.matchName (p : Project) : String := p.name.getD ""

/-- `p.get("name", "Unnamed")` — the form shown in candidate listings. -/
def Project.displayName (p : Project) : String := p.name.getD "Unnamed"

/-- Python's substring test `needle in hay`, on the character lists. -/
def subOf (needle : List Char) : List Char → Bool
  | [] => needle.isEmpty
  | c :: rest => needle.isPrefixOf (c :: rest) || subOf needle rest

/-- Outcome of the shared name-matching logic. -/
inductive MatchOutcome where
  | noMatch (available : List String)
  | ambiguous (candidates : List String)
  | found (p : Project)
  deriving Repr, DecidableEq

/-- The project-matching logic shared verbatim by
`cleanup._resolve_project_by_name` (cleanup.py 126-147) and
`projects._set_project` (projects.py 54-75): case-insensitive substring
match; on several matches, a unique case-insensitive exact match wins,
otherwise the ambiguous candidates are listed. -/
def matchProjects (name : String) (ps : List Project) : MatchOutcome :=
  let nl := pyLower name
  let ms := ps.filter (fun p => subOf nl.toList (pyLower p.matchName).toList)
  match ms with
  | [] => .noMatch (ps.map Project.displayName)
  | [p] => .found p
  | _ :: _ :: _ =>
    let exact := ms.filter (fun p => (pyLower p.matchName) == nl)
    match exact with
    | [e] => .found e
    | _ => .ambiguous (ms.map Project.displayName)

/-- `_resolve_project_by_name` (cleanup.py 115-152): fails on an empty
project list, otherwise returns `project.get("id")` of the match. -/
def resolve_project_by_name (name : String) (ps : List Project) :
    Option String :=
  if ps = [] then none
  else
    match matchProjects name ps with
    | .found p => p.id
    | _ => none

/-- Outcome of `_set_project` (projects.py 52-87). -/
inductive SetProjectResult where
  | notFound
  | ambiguousMatch
  | saved (id : String) (name : String)
  | saveFailed
  deriving Repr, DecidableEq

/-- `_set_project` (projects.py 52-87), over an abstract
`save_vibekanban_project_id` oracle. -/
def set_project (name : String) (ps : List Project) (save : String → Bool) :
    SetProjectResult :=
  match matchProjects name ps with
  | .noMatch _ => .notFound
  | .ambiguous _ => .ambiguousMatch
  | .found p =>
    if save (p.id.getD "") then .saved (p.id.getD "") p.displayName
    else .saveFailed

/-- A vibekanban task record, read as a dict with `.get`. -/
structure Task where
  id : Option String
  title : Option String
  status : Option String
  deriving Repr, DecidableEq

/-- Python truthiness of `task.get("id")`: present and non-empty. -/
def Task.hasId (t : Task) : Bool :=
  match t.id with
  | some i => !(i = "")
  | none => false

/-- Side effects of the cleanup deletion loop. -/
inductive CEvent where
  | taskDeleted (id : String)
  | taskDeleteFailed (id : String)
  deriving Repr, DecidableEq

/-- One iteration of the cleanup deletion loop (cleanup.py 94-106): a task
whose `id` is falsy (`if not task_id: continue`) is skipped without
touching either counter; otherwise `delete_task` decides deleted vs failed. -/
def delStep (del : String → Bool) (acc : List CEvent × Nat × Nat) (t : Task) :
    List CEvent × Nat × Nat :=
  match t.id with
  | none => acc
  | some i =>
    if i = "" then acc
    else if del i then (acc.1 ++ [.taskDeleted i], acc.2.1 + 1, acc.2.2)
    else (acc.1 ++ [.taskDeleteFailed i], acc.2.1, acc.2.2 + 1)

/-- The deletion loop of `cleanup` (cleanup.py 89-106); `delete_task` is
repository code outside `src/` (per the spec port it returns a boolean and
never raises), abstracted as the `del` oracle. -/
def deletionLoop (del : String → Bool) (tasks : List Task) :
    List CEvent × Nat × Nat :=
  tasks.foldl (delStep del) ([], 0, 0)

/-- Environment of the `cleanup` command.  `autoDiscovered` is the result of
`_auto_discover_project_id`, `tasks` that of `list_all_smithers_tasks`, and
`deleteTask` that of `delete_task` — all repository code outside `src/`,
abstracted as oracles per the spec's TaskBoardBackend port. -/
structure CleanupEnv where
  projects : List Project
  configuredProjectId : Option String
  autoDiscovered : Option String
  tasks : List Task
  deleteTask : String → Bool

/-- Terminal outcome of the `cleanup` command. -/
inductive CleanupResult where
  | resolveFailed
  | notConfigured
  | noTasks
  | cancelled
  | done (deleted : Nat) (failed : Nat)
  deriving Repr, DecidableEq

/-- Exit status of each `cleanup` outcome. -/
def CleanupResult.exitCode : CleanupResult → Nat
  | .resolveFailed => 1
  | .notConfigured => 1
  | .noTasks => 0
  | .cancelled => 0
  | .done _ _ => 0

/-- The `cleanup` command (cleanup.py 11-112): resolve the project (explicit
name, else configured id, else auto-discovery), require a configured
project, list tasks, confirm unless `--force`, then run the deletion loop. -/
def cleanupCommand (env : CleanupEnv) (projectArg : Option String)
    (force confirmAnswer : Bool) : List CEvent × CleanupResult :=
  let pid? : Except CleanupResult (Option String) :=
    match projectArg with
    | some n =>
      match resolve_project_by_name n env.projects with
      | none => .error .resolveFailed
      | some i => if i = "" then .error .resolveFailed else .ok (some i)
    | none =>
      match env.configuredProjectId with
      | some c => .ok (some c)
      | none => .ok env.autoDiscovered
  match pid? with
  | .error r => ([], r)
  | .ok pid =>
    if pid = none then ([], .notConfigured)
    else if env.tasks = [] then ([], .noTasks)
    else if ¬ force ∧ ¬ confirmAnswer then ([], .cancelled)
    else
      match deletionLoop env.deleteTask env.tasks with
      | (evs, deleted, failed) => (evs, .done deleted failed)

/-- `VibekanbanConfig` (config_loader.py 15-21) with its dataclass defaults. -/
structure VibekanbanConfig where
  enabled : Bool := false
  project_id : Option String := none
  deriving Repr, DecidableEq

/-- `load_vibekanban_config` (config_loader.py 23-48), over the parsed file
config (or the dataclass defaults when the file is missing or unreadable,
per `_load_from_file`) and the two environment variables. -/
def load_vibekanban_config (file_config : VibekanbanConfig)
    (env_enabled env_project_id : Option String) : VibekanbanConfig :=
  let enabled :=
    match env_enabled with
    | none => file_config.enabled
    | some v => pyLower v == "1" || pyLower v == "true" || pyLower v == "yes"
  let project_id :=
    match env_project_id with
    | none => file_config.project_id
    | some v => if v = "" then file_config.project_id else some v
  { enabled := enabled, project_id := project_id }

/-- Modelled from the spec: the ConfigStore also holds "a service port"
(spec section 6); the code loading the port (`get_vibekanban_url`) is
repository code not under `src/`, so the port is modelled as a persisted
value returned unchanged alongside the loaded config. -/
def load_config_store (persisted_port : Nat) (file_config : VibekanbanConfig)
    (env_enabled env_project_id : Option String) : VibekanbanConfig × Nat :=
  (load_vibekanban_config file_config env_enabled env_project_id,
    persisted_port)

/-- Outcome of `subprocess.run(cmd, check=False)`: either the process
completed with some return code, or the executable was not found
(`FileNotFoundError` raised by `subprocess.run` itself). -/
inductive RunOutcome where
  | completed (returncode : Int)
  | toolMissing
  deriving Repr, DecidableEq

/-- A gtr world is the set of branches that currently have a worktree; a
runner maps a world and a command line to the new world and the outcome. -/
abbrev GtrRunner := List String → List String → List String × RunOutcome

/-- The command line built by `cleanup_worktree` (git.py 163) and, with no
flags, by `remove_worktrees` (git.py 309). -/
def rmCmd (branch : String) : List String :=
  ["git", "gtr", "rm", branch, "--yes"]

/-- The mutable tracking state of `GitService` (git.py 32). -/
structure GitServiceState where
  created_worktrees : List String
  deriving Repr, DecidableEq

/-- `GitService.cleanup_worktree` (git.py 154-184): runs `git gtr rm` with
`check=False`, so a nonzero return code only logs a warning; the `except`
clause catches only `CalledProcessError`, which `check=False` never raises,
so the only escaping exception is `FileNotFoundError` from a missing tool.
On normal return the branch is dropped from the tracking list. -/
def cleanup_worktree (run : GtrRunner) (world : List String)
    (st : GitServiceState) (branch : String) :
    Except String (List String × GitServiceState) :=
  match run world (rmCmd branch) with
  | (w2, .completed _) =>
    .ok (w2, ⟨st.created_worktrees.erase branch⟩)
  | (_, .toolMissing) => .error "FileNotFoundError"

/-- `GitService.remove_worktrees` (git.py 288-336): per-branch loop counting
`removed`/`failed`; a nonzero return code or a missing tool
(`FileNotFoundError`, caught here) counts as a failure and the loop
continues. -/
def remove_worktrees (run : GtrRunner) (world : List String)
    (branches : List String) (delete_branch : Bool := false)
    (force : Bool := false) : List String × Nat × Nat :=
  branches.foldl
    (fun (acc : List String × Nat × Nat) branch =>
      let cmd := rmCmd branch
        ++ (if delete_branch then ["--delete-branch"] else [])
        ++ (if force then ["--force"] else [])
      match run acc.1 cmd with
      | (w2, .completed rc) =>
        if rc = 0 then (w2, acc.2.1 + 1, acc.2.2)
        else (w2, acc.2.1, acc.2.2 + 1)
      | (w2, .toolMissing) => (w2, acc.2.1, acc.2.2 + 1))
    (world, 0, 0)

/-- The runner contract from the spec's WorktreeBackend port (section 6):
`remove` of a present worktree removes it and succeeds; `remove` of an
absent worktree is idempotent — it succeeds and changes nothing. -/
def RunnerContract (run : GtrRunner) : Prop :=
  (∀ w b, b ∈ w → run w (rmCmd b) = (w.erase b, .completed 0)) ∧
  (∀ w b, b ∉ w → run w (rmCmd b) = (w, .completed 0))

/-- Per-session teardown guarantee over a trace: the session was killed and
reported, and every one of its tracked resources was attempted (either its
success event or its caught-failure warning appears). -/
def sessionProcessed (tr : List Event) (s : SessionInfo) : Prop :=
  Event.killedSession s.name ∈ tr ∧ Event.killedMsg s.name ∈ tr ∧
  (s.mode = some "implement" → ∀ pr ∈ s.prs,
    Event.closedPr pr ∈ tr ∨ ∃ m, Event.prCleanupFailed pr m ∈ tr) ∧
  (∀ w ∈ s.worktrees,
    Event.removedWorktree w ∈ tr ∨ ∃ m, Event.worktreeCleanupFailed w m ∈ tr) ∧
  (∀ f ∈ s.plans,
    Event.deletedPlan f ∈ tr ∨ ∃ m, Event.planDeleteFailed f m ∈ tr)

/-- A backend oracle on which every call succeeds. -/
def okBackends : Backends where
  killSession := fun _ => .ok ()
  getPrInfo := fun _ => .ok "feature-1"
  closePr := fun _ _ => .ok ()
  deleteBranch := fun _ => .ok ()
  cleanupWorktree := fun _ => .ok ()
  unlinkPlan := fun _ => .ok ()

/-- A backend oracle on which killing the tmux session named `s2` raises. -/
def killFailsOnS2 : Backends where
  killSession := fun n => if n = "s2" then .error "tmux failure" else .ok ()
  getPrInfo := fun _ => .ok "feature-1"
  closePr := fun _ _ => .ok ()
  deleteBranch := fun _ => .ok ()
  cleanupWorktree := fun _ => .ok ()
  unlinkPlan := fun _ => .ok ()

/-- Three live resource-less sessions. -/
def threeSessionsEnv : TmuxEnv where
  lastSession := none
  sessions := ["s1", "s2", "s3"]
  sessionExists := fun _ => true
  getMode := fun _ => none
  getWorktrees := fun _ => []
  getPrs := fun _ => []
  getPlanFiles := fun _ => []

/-- One live session named `A` whose liveness check answers false (the
session disappeared between listing and the existence check, or a dead name
was passed explicitly). -/
def ghostEnv : TmuxEnv where
  lastSession := none
  sessions := ["A"]
  sessionExists := fun _ => false
  getMode := fun _ => none
  getWorktrees := fun _ => []
  getPrs := fun _ => []
  getPlanFiles := fun _ => []

/-- One live `implement` session with resources, for confirmation tests. -/
def liveEnv : TmuxEnv where
  lastSession := none
  sessions := ["smithers-impl-1"]
  sessionExists := fun n => n = "smithers-impl-1"
  getMode := fun _ => some "implement"
  getWorktrees := fun _ => ["stage-1"]
  getPrs := fun _ => [7]
  getPlanFiles := fun _ => ["plan.md"]

/-- A configured cleanup environment with one deletable task. -/
def configuredCleanupEnv : CleanupEnv where
  projects := [⟨some "megarepo", some "id1"⟩]
  configuredProjectId := some "id1"
  autoDiscovered := none
  tasks := [⟨some "t1", some "[impl] Add auth", some "todo"⟩]
  deleteTask := fun _ => true

/-- A gtr runner satisfying the WorktreeBackend contract: `rm` deletes the
branch's worktree when present and is a successful no-op when absent. -/
def contractRun : GtrRunner := fun w cmd =>
  if cmd.take 3 = ["git", "gtr", "rm"] then
    match cmd.get? 3 with
    | some b => if b ∈ w then (w.erase b, .completed 0) else (w, .completed 0)
    | none => (w, .completed 0)
  else (w, .completed 0)

theorem foldl_append_flatMap {α : Type} (g : α → List Event) (l : List α) :
    ∀ acc : List Event, l.foldl (fun a x => a ++ g x) acc = acc ++ l.flatMap g := by
  induction l with
  | nil => intro acc; simp
  | cons x xs ih => intro acc; simp [List.foldl_cons, ih]

theorem prStep_attempt (b : Backends) (pr : Nat) :
    Event.closedPr pr ∈ prStepEvents b pr ∨
      ∃ m, Event.prCleanupFailed pr m ∈ prStepEvents b pr := by
  cases he : b.getPrInfo pr with
  | error e => exact Or.inr ⟨e, by simp [prStepEvents, he]⟩
  | ok br =>
    cases hc : b.closePr pr killComment with
    | error e => exact Or.inr ⟨e, by simp [prStepEvents, he, hc]⟩
    | ok u =>
      cases hd : b.deleteBranch br with
      | error e => exact Or.inl (by simp [prStepEvents, he, hc, hd])
      | ok u => exact Or.inl (by simp [prStepEvents, he, hc, hd])

theorem wtStep_attempt (b : Backends) (w : String) :
    Event.removedWorktree w ∈ wtStepEvents b w ∨
      ∃ m, Event.worktreeCleanupFailed w m ∈ wtStepEvents b w := by
  cases he : b.cleanupWorktree w with
  | error e => exact Or.inr ⟨e, by simp [wtStepEvents, he]⟩
  | ok u => exact Or.inl (by simp [wtStepEvents, he])

theorem planStep_attempt (b : Backends) (f : String) :
    Event.deletedPlan f ∈ planStepEvents b f ∨
      ∃ m, Event.planDeleteFailed f m ∈ planStepEvents b f := by
  cases he : b.unlinkPlan f with
  | error e => exact Or.inr ⟨e, by simp [planStepEvents, he]⟩
  | ok u => exact Or.inl (by simp [planStepEvents, he])

theorem killSWC_eq (b : Backends) (name : String) (mode : Option String)
    (wts : List String) (prs : List Nat) (plans : List String)
    (h : b.killSession name = .ok ()) :
    killSessionWithCleanup b name mode wts prs plans =
      (Event.killedSession name ::
        ((if mode = some "implement" ∧ prs ≠ [] then
            prs.flatMap (prStepEvents b) else []) ++
          wts.flatMap (wtStepEvents b) ++ plans.flatMap (planStepEvents b)),
        none) := by
  by_cases h1 : mode = some "implement" ∧ prs ≠ [] <;>
    by_cases h2 : wts = [] <;> by_cases h3 : plans = [] <;>
      simp [killSessionWithCleanup, h, h1, h2, h3, foldl_append_flatMap]

theorem killSWC_attempts (b : Backends) (name : String) (mode : Option String)
    (wts : List String) (prs : List Nat) (plans : List String)
    (h : b.killSession name = .ok ()) :
    (mode = some "implement" → ∀ pr ∈ prs,
      Event.closedPr pr ∈ (killSessionWithCleanup b name mode wts prs plans).1 ∨
      ∃ m, Event.prCleanupFailed pr m ∈
        (killSessionWithCleanup b name mode wts prs plans).1) ∧
    (∀ w ∈ wts,
      Event.removedWorktree w ∈
        (killSessionWithCleanup b name mode wts prs plans).1 ∨
      ∃ m, Event.worktreeCleanupFailed w m ∈
        (killSessionWithCleanup b name mode wts prs plans).1) ∧
    (∀ f ∈ plans,
      Event.deletedPlan f ∈ (killSessionWithCleanup b name mode wts prs plans).1 ∨
      ∃ m, Event.planDeleteFailed f m ∈
        (killSessionWithCleanup b name mode wts prs plans).1) := by
  rw [killSWC_eq b name mode wts prs plans h]
  refine ⟨?_, ?_, ?_⟩
  · intro hm pr hpr
    have hne : prs ≠ [] := List.ne_nil_of_mem hpr
    rw [if_pos ⟨hm, hne⟩]
    rcases prStep_attempt b pr with hin | ⟨m, hin⟩
    · exact Or.inl (List.mem_cons_of_mem _ (List.mem_append_left _
        (List.mem_append_left _ (List.mem_flatMap.mpr ⟨pr, hpr, hin⟩))))
    · exact Or.inr ⟨m, List.mem_cons_of_mem _ (List.mem_append_left _
        (List.mem_append_left _ (List.mem_flatMap.mpr ⟨pr, hpr, hin⟩)))⟩
  · intro w hw
    rcases wtStep_attempt b w with hin | ⟨m, hin⟩
    · exact Or.inl (List.mem_cons_of_mem _ (List.mem_append_left _
        (List.mem_append_right _ (List.mem_flatMap.mpr ⟨w, hw, hin⟩))))
    · exact Or.inr ⟨m, List.mem_cons_of_mem _ (List.mem_append_left _
        (List.mem_append_right _ (List.mem_flatMap.mpr ⟨w, hw, hin⟩)))⟩
  · intro f hf
    rcases planStep_attempt b f with hin | ⟨m, hin⟩
    · exact Or.inl (List.mem_cons_of_mem _ (List.mem_append_right _
        (List.mem_flatMap.mpr ⟨f, hf, hin⟩)))
    · exact Or.inr ⟨m, List.mem_cons_of_mem _ (List.mem_append_right _
        (List.mem_flatMap.mpr ⟨f, hf, hin⟩))⟩

/-- C1: for every single-session kill that reaches Execution (the tmux kill
succeeds), the teardown trace is exactly: the session kill, then — only for
an `implement`-mode session with tracked PRs — the per-PR events (branch
lookup, close with the fixed attribution comment, branch delete, each PR's
failure caught as a warning), then the per-worktree removals, then the
per-plan-file deletions; and every tracked PR, worktree and plan file is
attempted regardless of failures on the others (its success or its
caught-failure warning appears in the trace). -/
theorem kill_single_session_teardown (b : Backends) (name : String)
    (mode : Option String) (wts : List String) (prs : List Nat)
    (plans : List String) (h : b.killSession name = .ok ()) :
    killSessionWithCleanup b name mode wts prs plans =
      (Event.killedSession name ::
        ((if mode = some "implement" ∧ prs ≠ [] then
            prs.flatMap (prStepEvents b) else []) ++
          wts.flatMap (wtStepEvents b) ++ plans.flatMap (planStepEvents b)),
        none) ∧
    (mode = some "implement" → ∀ pr ∈ prs,
      Event.closedPr pr ∈ (killSessionWithCleanup b name mode wts prs plans).1 ∨
      ∃ m, Event.prCleanupFailed pr m ∈
        (killSessionWithCleanup b name mode wts prs plans).1) ∧
    (∀ w ∈ wts,
      Event.removedWorktree w ∈
        (killSessionWithCleanup b name mode wts prs plans).1 ∨
      ∃ m, Event.worktreeCleanupFailed w m ∈
        (killSessionWithCleanup b name mode wts prs plans).1) ∧
    (∀ f ∈ plans,
      Event.deletedPlan f ∈ (killSessionWithCleanup b name mode wts prs plans).1 ∨
      ∃ m, Event.planDeleteFailed f m ∈
        (killSessionWithCleanup b name mode wts prs plans).1) :=
  ⟨killSWC_eq b name mode wts prs plans h,
    killSWC_attempts b name mode wts prs plans h⟩

theorem kill_single_session_teardown_witness :
    (killSessionWithCleanup okBackends "smithers-impl-1" (some "implement")
      ["stage-1"] [7] ["plan.md"]).2 = none := by
  rw [(kill_single_session_teardown okBackends "smithers-impl-1"
    (some "implement") ["stage-1"] [7] ["plan.md"] rfl).1]

theorem sessionProcessed_mono (tr tr' : List Event) (s : SessionInfo)
    (hsub : ∀ e, e ∈ tr → e ∈ tr') (h : sessionProcessed tr s) :
    sessionProcessed tr' s := by
  obtain ⟨h1, h2, h3, h4, h5⟩ := h
  refine ⟨hsub _ h1, hsub _ h2, ?_, ?_, ?_⟩
  · intro hm pr hpr
    rcases h3 hm pr hpr with hx | ⟨m, hx⟩
    exacts [Or.inl (hsub _ hx), Or.inr ⟨m, hsub _ hx⟩]
  · intro w hw
    rcases h4 w hw with hx | ⟨m, hx⟩
    exacts [Or.inl (hsub _ hx), Or.inr ⟨m, hsub _ hx⟩]
  · intro f hf
    rcases h5 f hf with hx | ⟨m, hx⟩
    exacts [Or.inl (hsub _ hx), Or.inr ⟨m, hsub _ hx⟩]

theorem killSWC_processed (b : Backends) (s : SessionInfo)
    (h : b.killSession s.name = .ok ()) :
    sessionProcessed
      ((killSessionWithCleanup b s.name s.mode s.worktrees s.prs s.plans).1 ++
        [Event.killedMsg s.name]) s := by
  obtain ⟨hpr, hwt, hpl⟩ := killSWC_attempts b s.name s.mode s.worktrees s.prs s.plans h
  have hsub : ∀ e, e ∈ (killSessionWithCleanup b s.name s.mode s.worktrees s.prs s.plans).1 →
      e ∈ (killSessionWithCleanup b s.name s.mode s.worktrees s.prs s.plans).1 ++
        [Event.killedMsg s.name] := fun e he => List.mem_append_left _ he
  refine ⟨?_, List.mem_append_right _ (by simp), ?_, ?_, ?_⟩
  · rw [killSWC_eq b s.name s.mode s.worktrees s.prs s.plans h]
    exact List.mem_append_left _ (List.mem_cons_self _ _)
  · intro hm pr hpr2
    rcases hpr hm pr hpr2 with hx | ⟨m, hx⟩
    exacts [Or.inl (hsub _ hx), Or.inr ⟨m, hsub _ hx⟩]
  · intro w hw
    rcases hwt w hw with hx | ⟨m, hx⟩
    exacts [Or.inl (hsub _ hx), Or.inr ⟨m, hsub _ hx⟩]
  · intro f hf
    rcases hpl f hf with hx | ⟨m, hx⟩
    exacts [Or.inl (hsub _ hx), Or.inr ⟨m, hsub _ hx⟩]

theorem killAllExec_ok (b : Backends) (infos : List SessionInfo)
    (h : ∀ s ∈ infos, b.killSession s.name = .ok ()) :
    (killAllExec b infos).2 = none ∧
    ∀ s ∈ infos, sessionProcessed (killAllExec b infos).1 s := by
  induction infos with
  | nil => exact ⟨rfl, by simp⟩
  | cons s rest ih =>
    have hs : b.killSession s.name = .ok () := h s (by simp)
    have hrest : ∀ t ∈ rest, b.killSession t.name = .ok () :=
      fun t ht => h t (by simp [ht])
    obtain ⟨ih1, ih2⟩ := ih hrest
    have hcons : killAllExec b (s :: rest) =
        ((killSessionWithCleanup b s.name s.mode s.worktrees s.prs s.plans).1 ++
          Event.killedMsg s.name :: (killAllExec b rest).1,
          (killAllExec b rest).2) := by
      rw [killAllExec, killSWC_eq b s.name s.mode s.worktrees s.prs s.plans hs]
    rw [hcons]
    refine ⟨ih1, ?_⟩
    intro t ht
    rcases List.mem_cons.mp ht with rfl | ht'
    · refine sessionProcessed_mono _ _ _ ?_ (killSWC_processed b t hs)
      intro e he
      rcases List.mem_append.mp he with he' | he'
      · exact List.mem_append_left _ he'
      · simp at he'
        subst he'
        exact List.mem_append_right _ (by simp)
    · refine sessionProcessed_mono _ _ _ ?_ (ih2 t ht')
      intro e he
      exact List.mem_append_right _ (List.mem_cons_of_mem _ he)

/-- C2 counterexample: with three live, resource-free sessions and a backend
on which killing the tmux session `s2` raises, the `--all` loop processes
`s1`, aborts at `s2` with the escaped exception, and never processes `s3` —
even though a failure occurred only in the kill of session 2. -/
theorem kill_all_counterexample :
    (killAllSessions killFailsOnS2 threeSessionsEnv true true).2 =
      some "tmux failure" ∧
    Event.killedSession "s1" ∈
      (killAllSessions killFailsOnS2 threeSessionsEnv true true).1 ∧
    Event.killedSession "s3" ∉
      (killAllSessions killFailsOnS2 threeSessionsEnv true true).1 ∧
    Event.killedMsg "s3" ∉
      (killAllSessions killFailsOnS2 threeSessionsEnv true true).1 := by
  decide

/-- C2 (amended): in `kill --all` over the live sessions, a failure inside
any resource-cleanup step of session i (PR lookup/close/branch-delete,
worktree removal, plan-file deletion — all caught per item) does not prevent
sessions i+1..n from being fully processed, and after the batch the
aggregate count is reported; but this holds only when the tmux kill itself
succeeds for every session — an exception from the kill call is uncaught
and aborts the remaining sessions (see the counterexample). -/
theorem kill_all_best_effort (b : Backends) (env : TmuxEnv)
    (h : ∀ n ∈ env.sessions, b.killSession n = .ok ()) :
    (killAllSessions b env true true).2 = none ∧
    (∀ n ∈ env.sessions,
      sessionProcessed (killAllSessions b env true true).1
        (gatherSessionInfo env n)) ∧
    (env.sessions ≠ [] →
      Event.batchReport env.sessions.length ∈
        (killAllSessions b env true true).1) := by
  by_cases he : env.sessions = []
  · refine ⟨by simp [killAllSessions, he], ?_, by simp [he]⟩
    intro n hn
    rw [he] at hn
    simp at hn
  · have hmap : ∀ s ∈ env.sessions.map (gatherSessionInfo env),
        b.killSession s.name = .ok () := by
      intro s hs
      rw [List.mem_map] at hs
      obtain ⟨n, hn, rfl⟩ := hs
      exact h n hn
    obtain ⟨h1, h2⟩ := killAllExec_ok b _ hmap
    rcases hX : killAllExec b (env.sessions.map (gatherSessionInfo env))
      with ⟨tr, err⟩
    rw [hX] at h1 h2
    simp only at h1 h2
    subst h1
    have hks : killAllSessions b env true true =
        (tr ++ [Event.batchReport env.sessions.length], none) := by
      simp [killAllSessions, he, hX]
    rw [hks]
    refine ⟨rfl, ?_, fun _ => List.mem_append_right _ (by simp)⟩
    intro n hn
    refine sessionProcessed_mono _ _ _ ?_
      (h2 (gatherSessionInfo env n) (List.mem_map_of_mem _ hn))
    intro e he'
    exact List.mem_append_left _ he'

theorem kill_all_best_effort_witness :
    (killAllSessions okBackends threeSessionsEnv true true).2 = none :=
  (kill_all_best_effort okBackends threeSessionsEnv (fun _ _ => rfl)).1

/-- C3: `get_branch_dependency_base` returns the default base exactly when
`depends_on` is absent or case-insensitively equal to "none", and otherwise
returns `depends_on` itself unchanged; its signature takes no view of which
branches exist, so no existence validation can occur. -/
theorem dependency_base_resolution (db : String) :
    get_branch_dependency_base none db = db ∧
    (∀ s : String, pyLower s = "none" →
      get_branch_dependency_base (some s) db = db) ∧
    (∀ s : String, pyLower s ≠ "none" →
      get_branch_dependency_base (some s) db = s) := by
  refine ⟨rfl, ?_, ?_⟩
  · intro s hs
    simp [get_branch_dependency_base, hs]
  · intro s hs
    simp [get_branch_dependency_base, hs]

theorem dependency_base_resolution_witness :
    get_branch_dependency_base (some "NoNe") "main" = "main" ∧
    get_branch_dependency_base (some "stage-1-models") "main" = "stage-1-models" :=
  ⟨(dependency_base_resolution "main").2.1 "NoNe" (by decide),
    (dependency_base_resolution "main").2.2 "stage-1-models" (by decide)⟩

/-- C4: project resolution matches case-insensitively by substring; zero
matches fail listing all available names; of several substring matches a
unique case-insensitive exact match is preferred; otherwise resolution
fails listing the ambiguous candidates; and {"megarepo", "megarepo-docs"}
queried with "megarepo" yields the project named "megarepo". -/
theorem project_name_resolution (name : String) (ps : List Project) :
    (ps.filter (fun p => subOf (pyLower name).toList (pyLower p.matchName).toList)
        = [] →
      matchProjects name ps = .noMatch (ps.map Project.displayName)) ∧
    (∀ p,
      ps.filter (fun p => subOf (pyLower name).toList (pyLower p.matchName).toList)
          = [p] →
      matchProjects name ps = .found p) ∧
    (∀ p q rest,
      ps.filter (fun p => subOf (pyLower name).toList (pyLower p.matchName).toList)
          = p :: q :: rest →
      (∀ e, (p :: q :: rest).filter
            (fun x => (pyLower x.matchName) == pyLower name) = [e] →
        matchProjects name ps = .found e) ∧
      (((p :: q :: rest).filter
            (fun x => (pyLower x.matchName) == pyLower name)).length ≠ 1 →
        matchProjects name ps =
          .ambiguous ((p :: q :: rest).map Project.displayName))) ∧
    matchProjects "megarepo"
        [⟨some "megarepo", some "id1"⟩, ⟨some "megarepo-docs", some "id2"⟩] =
      .found ⟨some "megarepo", some "id1"⟩ := by
  refine ⟨?_, ?_, ?_, by decide⟩
  · intro hf
    simp only [matchProjects]
    rw [hf]
  · intro p hf
    simp only [matchProjects]
    rw [hf]
  · intro p q rest hf
    constructor
    · intro e he
      simp only [matchProjects]
      rw [hf]
      simp only []
      rw [he]
    · intro hlen
      simp only [matchProjects]
      rw [hf]
      simp only []
      rcases hx : (p :: q :: rest).filter
          (fun x => (pyLower x.matchName) == pyLower name) with _ | ⟨e, _ | ⟨f, r⟩⟩
      · rw [hx]
      · exact absurd (by rw [hx]; rfl) hlen
      · rw [hx]

theorem project_name_resolution_witness :
    matchProjects "zzz" [⟨some "megarepo", some "id1"⟩] =
      .noMatch ["megarepo"] :=
  (project_name_resolution "zzz" [⟨some "megarepo", some "id1"⟩]).1 (by decide)

/-- C5: with no name and no last-session hint, more than one live session
makes `kill` fail with an ambiguous-target condition listing exactly the
live candidates (no auto-pick), while exactly one live session is selected
as the target. -/
theorem ambiguous_target_resolution (sessions : List String) :
    (∀ a b rest, sessions = a :: b :: rest →
      resolveKillTarget none none sessions = .ambiguous sessions) ∧
    (∀ s, sessions = [s] → resolveKillTarget none none sessions = .target s) := by
  constructor
  · intro a b rest h
    subst h
    rfl
  · intro s h
    subst h
    rfl

theorem ambiguous_target_resolution_witness :
    resolveKillTarget none none ["A", "B"] = .ambiguous ["A", "B"] :=
  (ambiguous_target_resolution ["A", "B"]).1 "A" "B" [] rfl

/-- C6: killing a session name that resolves but is not a live session
performs no side effect (empty trace), reports not-found listing the live
sessions, and exits with status 1. -/
theorem kill_nonexistent_session (b : Backends) (env : TmuxEnv)
    (arg : Option String) (force answer : Bool) (t : String)
    (hres : resolveKillTarget arg env.lastSession env.sessions = .target t)
    (hex : env.sessionExists t = false) :
    killCommand b env arg force answer = ([], .notFound t env.sessions) ∧
    (KillResult.notFound t env.sessions).exitCode = 1 := by
  refine ⟨?_, rfl⟩
  simp [killCommand, hres, hex]

theorem kill_nonexistent_session_witness :
    killCommand okBackends ghostEnv (some "ghost") false false =
      ([], .notFound "ghost" ["A"]) :=
  (kill_nonexistent_session okBackends ghostEnv (some "ghost") false false
    "ghost" rfl rfl).1

/-- C7: for both `kill` and `cleanup`, without `--force` a declined
confirmation yields no side effect and exit status 0, distinguishable from
the status-1 exits of resolution failures; with `--force` the confirmation
answer is irrelevant. -/
theorem confirmation_gating (b : Backends) (env : TmuxEnv) (cenv : CleanupEnv)
    (arg : Option String) (t : String) (a1 a2 : Bool)
    (hres : resolveKillTarget arg env.lastSession env.sessions = .target t)
    (hex : env.sessionExists t = true)
    (hc : cenv.configuredProjectId ≠ none)
    (ht : cenv.tasks ≠ []) :
    killCommand b env arg false false = ([], .cancelled t) ∧
    (KillResult.cancelled t).exitCode = 0 ∧
    killCommand b env arg true a1 = killCommand b env arg true a2 ∧
    cleanupCommand cenv none false false = ([], .cancelled) ∧
    CleanupResult.cancelled.exitCode = 0 ∧
    cleanupCommand cenv none true a1 = cleanupCommand cenv none true a2 ∧
    (KillResult.notFound t env.sessions).exitCode = 1 ∧
    CleanupResult.resolveFailed.exitCode = 1 ∧
    CleanupResult.notConfigured.exitCode = 1 := by
  obtain ⟨c, hcc⟩ := Option.ne_none_iff_exists'.mp hc
  refine ⟨?_, rfl, ?_, ?_, rfl, ?_, rfl, rfl, rfl⟩
  · simp [killCommand, hres, hex]
  · simp [killCommand, hres, hex]
  · simp [cleanupCommand, hcc, ht]
  · simp [cleanupCommand, hcc, ht]

theorem confirmation_gating_witness :
    killCommand okBackends liveEnv (some "smithers-impl-1") false false =
      ([], .cancelled "smithers-impl-1") ∧
    cleanupCommand configuredCleanupEnv none false false = ([], .cancelled) :=
  have h := confirmation_gating okBackends liveEnv configuredCleanupEnv
    (some "smithers-impl-1") "smithers-impl-1" true false rfl rfl
    (by decide) (by decide)
  ⟨h.1, h.2.2.2.1⟩

/-- C8: against a runner satisfying the WorktreeBackend contract (remove of
an absent worktree succeeds and is a no-op), removing the same branch's
worktree twice in a row — the worktree present the first time, absent the
second — raises no exception either time (`cleanup_worktree` returns
normally) and `remove_worktrees` counts both invocations as
`(removed, failed) = (1, 0)`, never as a failure. -/
theorem worktree_removal_idempotent (run : GtrRunner)
    (hrun : RunnerContract run) (w : List String) (st st2 : GitServiceState)
    (b : String) (hb : b ∈ w) (hnd : w.Nodup) :
    cleanup_worktree run w st b =
      .ok (w.erase b, ⟨st.created_worktrees.erase b⟩) ∧
    cleanup_worktree run (w.erase b) st2 b =
      .ok (w.erase b, ⟨st2.created_worktrees.erase b⟩) ∧
    remove_worktrees run w [b] = (w.erase b, 1, 0) ∧
    remove_worktrees run (w.erase b) [b] = (w.erase b, 1, 0) := by
  obtain ⟨hp, ha⟩ := hrun
  have hnotin : b ∉ w.erase b := hnd.not_mem_erase
  refine ⟨?_, ?_, ?_, ?_⟩
  · simp [cleanup_worktree, hp w b hb]
  · simp [cleanup_worktree, ha (w.erase b) b hnotin]
  · simp [remove_worktrees, hp w b hb]
  · simp [remove_worktrees, ha (w.erase b) b hnotin]

theorem worktree_removal_idempotent_witness :
    remove_worktrees contractRun ["stage-1"] ["stage-1"] = ([], 1, 0) ∧
    remove_worktrees contractRun [] ["stage-1"] = ([], 1, 0) :=
  have hc : RunnerContract contractRun := by
    constructor
    · intro w b hb
      simp [contractRun, rmCmd, hb]
    · intro w b hb
      simp [contractRun, rmCmd, hb]
  have h := worktree_removal_idempotent contractRun hc ["stage-1"]
    ⟨["stage-1"]⟩ ⟨[]⟩ "stage-1" (by decide) (by decide)
  ⟨h.2.2.1, h.2.2.2⟩

/-- C9: the configuration loader returns the persisted service port and the
project id, where the enable flag is overridden by
`SMITHERS_VIBEKANBAN_ENABLED` whenever set — truthy exactly for the
case-insensitive values "1", "true", "yes" — and the project id by
`SMITHERS_VIBEKANBAN_PROJECT_ID` whenever set and non-empty; with neither
variable set the file values are returned, and the file-level defaults are
`enabled = false`, `project_id = none`. -/
theorem config_env_overrides (port : Nat) (fc : VibekanbanConfig)
    (ee ep : Option String) :
    (load_config_store port fc ee ep).2 = port ∧
    (load_config_store port fc ee ep).1 = load_vibekanban_config fc ee ep ∧
    (∀ v, ee = some v → (load_vibekanban_config fc ee ep).enabled =
      (pyLower v == "1" || pyLower v == "true" || pyLower v == "yes")) ∧
    (ee = none → (load_vibekanban_config fc ee ep).enabled = fc.enabled) ∧
    (∀ v, ep = some v → v ≠ "" →
      (load_vibekanban_config fc ee ep).project_id = some v) ∧
    (ep = some "" → (load_vibekanban_config fc ee ep).project_id =
      fc.project_id) ∧
    (ep = none → (load_vibekanban_config fc ee ep).project_id =
      fc.project_id) ∧
    ({} : VibekanbanConfig) = ⟨false, none⟩ := by
  refine ⟨rfl, rfl, ?_, ?_, ?_, ?_, ?_, rfl⟩
  · intro v hv
    simp [load_vibekanban_config, hv]
  · intro h
    simp [load_vibekanban_config, h]
  · intro v hv hne
    simp [load_vibekanban_config, hv, hne]
  · intro h
    simp [load_vibekanban_config, h]
  · intro h
    simp [load_vibekanban_config, h]

theorem config_env_overrides_witness :
    (load_vibekanban_config ⟨false, some "file-id"⟩ (some "TRUE") (some "")).enabled
        = true ∧
    (load_vibekanban_config ⟨false, some "file-id"⟩ (some "TRUE") (some "")).project_id
        = some "file-id" :=
  have h := config_env_overrides 8080 ⟨false, some "file-id"⟩
    (some "TRUE") (some "")
  ⟨by rw [h.2.2.1 "TRUE" rfl]; decide, h.2.2.2.2.2.1 rfl⟩

theorem delStep_shift (del : String → Bool) (t : Task)
    (evs : List CEvent) (d f : Nat) :
    delStep del (evs, d, f) t =
      (evs ++ (delStep del ([], 0, 0) t).1,
        d + (delStep del ([], 0, 0) t).2.1,
        f + (delStep del ([], 0, 0) t).2.2) := by
  rcases t with ⟨tid, title, status⟩
  rcases tid with _ | i
  · simp [delStep]
  · by_cases hi : i = ""
    · simp [delStep, hi]
    · by_cases hd : del i
      · simp [delStep, hi, hd]
      · simp [delStep, hi, hd]

theorem foldl_delStep (del : String → Bool) (tasks : List Task) :
    ∀ (evs : List CEvent) (d f : Nat),
      tasks.foldl (delStep del) (evs, d, f) =
        (evs ++ (deletionLoop del tasks).1,
          d + (deletionLoop del tasks).2.1,
          f + (deletionLoop del tasks).2.2) := by
  induction tasks with
  | nil => intro evs d f; simp [deletionLoop]
  | cons t rest ih =>
    intro evs d f
    have h1 : deletionLoop del (t :: rest) =
        ((delStep del ([], 0, 0) t).1 ++ (deletionLoop del rest).1,
          (delStep del ([], 0, 0) t).2.1 + (deletionLoop del rest).2.1,
          (delStep del ([], 0, 0) t).2.2 + (deletionLoop del rest).2.2) := by
      show (t :: rest).foldl (delStep del) ([], 0, 0) = _
      rw [List.foldl_cons, delStep_shift del t [] 0 0]
      simp only [List.nil_append, Nat.zero_add]
      exact ih _ _ _
    rw [List.foldl_cons, delStep_shift del t evs d f, ih, h1]
    simp [Nat.add_assoc]

theorem deletionLoop_counts (del : String → Bool) (tasks : List Task) :
    (deletionLoop del tasks).2.1 + (deletionLoop del tasks).2.2 =
      (tasks.filter Task.hasId).length := by
  induction tasks with
  | nil => rfl
  | cons t rest ih =>
    have h1 : deletionLoop del (t :: rest) =
        ((delStep del ([], 0, 0) t).1 ++ (deletionLoop del rest).1,
          (delStep del ([], 0, 0) t).2.1 + (deletionLoop del rest).2.1,
          (delStep del ([], 0, 0) t).2.2 + (deletionLoop del rest).2.2) := by
      show (t :: rest).foldl (delStep del) ([], 0, 0) = _
      rw [List.foldl_cons, delStep_shift del t [] 0 0]
      simp only [List.nil_append, Nat.zero_add]
      exact foldl_delStep del rest _ _ _
    rw [h1]
    rcases t with ⟨tid, title, status⟩
    rcases tid with _ | i
    · simp only [delStep, Task.hasId, List.filter_cons]
      simp [ih]
    · by_cases hi : i = ""
      · simp only [delStep, Task.hasId, List.filter_cons, hi]
        simp [ih]
      · by_cases hd : del i
        · simp only [delStep, Task.hasId, List.filter_cons, hi, hd]
          simp [hi, ih]
          omega
        · simp only [delStep, Task.hasId, List.filter_cons, hi, hd]
          simp [hi, ih]
          omega

/-- C10: in the cleanup deletion loop, a task whose record lacks a (truthy)
id is silently skipped — counted neither as deleted nor as failed — so the
reported deleted plus failed counts equal the number of discovered tasks
with an id, which can be strictly below the number of tasks presented for
confirmation (the concrete conjunct: two tasks presented, one id-less,
counts sum to 1). -/
theorem cleanup_skips_idless_tasks (env : CleanupEnv) (del : String → Bool)
    (tasks : List Task) (c : String)
    (hc : env.configuredProjectId = some c) (ht : env.tasks ≠ []) :
    (deletionLoop del tasks).2.1 + (deletionLoop del tasks).2.2 =
      (tasks.filter Task.hasId).length ∧
    (tasks.filter Task.hasId).length ≤ tasks.length ∧
    cleanupCommand env none true true =
      ((deletionLoop env.deleteTask env.tasks).1,
        .done (deletionLoop env.deleteTask env.tasks).2.1
          (deletionLoop env.deleteTask env.tasks).2.2) ∧
    (deletionLoop (fun _ => true)
        [⟨none, some "Untitled", some "todo"⟩, ⟨some "t1", none, none⟩]).2.1 +
      (deletionLoop (fun _ => true)
        [⟨none, some "Untitled", some "todo"⟩, ⟨some "t1", none, none⟩]).2.2 = 1 ∧
    ([⟨none, some "Untitled", some "todo"⟩, ⟨some "t1", none, none⟩] :
      List Task).length = 2 := by
  refine ⟨deletionLoop_counts del tasks, List.length_filter_le _ _, ?_,
    by decide, rfl⟩
  rcases hd : deletionLoop env.deleteTask env.tasks with ⟨evs, deleted, failed⟩
  simp [cleanupCommand, hc, ht, hd]

theorem cleanup_skips_idless_tasks_witness :
    cleanupCommand configuredCleanupEnv none true true =
      ([CEvent.taskDeleted "t1"], .done 1 0) := by
  rw [(cleanup_skips_idless_tasks configuredCleanupEnv (fun _ => true) []
    "id1" rfl (by decide)).2.2.1]
  decide

end Smithers
